import Mathlib

/-!
Verification development for the `time_lapse` repository
(`src/app.py`, `src/migrate_frames.py`, `src/start.py`).

The recorder (`app.py`) captures one frame per cycle into a staging
directory, counts frames against a threshold, and shells out to an external
tool to concatenate them into a video; the migration script
(`migrate_frames.py`) groups legacy image files by timestamp or count and
assembles each group.

Modelling conventions:
* file and directory contents are lists of names; a name is the list of its
  character code points (CPython compares strings, and `pathlib.Path`s inside
  one directory, by code points);
* the external tool (`ffmpeg`) is an oracle: its exit status and a
  did-the-call-raise flag are inputs to each modelled invocation;
* CPython's `sorted` is modelled by a stable structurally recursive
  insertion sort (observably equal to Timsort: both are stable);
* the `FRAMES_PER_VIDEO` computation `int((h * 3600) / c)` goes through a
  Python `float`: it is modelled by correctly rounded binary64 division
  (round to nearest, ties to even, 53-bit significand; the overflow and
  subnormal edges of binary64 lie outside every configuration considered
  here), followed by truncation of the nonnegative quotient;
* the remaining `float` quantities (playlist durations `1.0 / fps`, the
  elapsed-hours comparison `total_seconds() / 3600 >= hours_per_group` on
  integer-second spacings) are modelled by exact rational arithmetic, which
  agrees with the binary64 computation on every input the theorems below
  range over (the quantities are tiny against the 53-bit significand and
  the compared gaps dwarf the rounding error).
-/

/-- A file name, as its list of character code points. -/
abbrev Name : Type := List Nat

/-- Code points of a string literal. -/
def strCodes (s : String) : Name := s.data.map Char.toNat

/-- Lexicographic comparison of names: CPython string comparison by code
points (a proper prefix is smaller). -/
def lexLe : Name → Name → Bool
  | [], _ => true
  | _ :: _, [] => false
  | a :: as, b :: bs => if a < b then true else if a = b then lexLe as bs else false

/-- Insert an element into a list, in front of the first element it is
`le`-below-or-equal to. -/
def insertSorted (le : α → α → Bool) (a : α) : List α → List α
  | [] => [a]
  | b :: bs => if le a b then a :: b :: bs else b :: insertSorted le a bs

/-- Stable insertion sort, the model of CPython `sorted`. -/
def sortBy (le : α → α → Bool) (l : List α) : List α :=
  l.foldr (insertSorted le) []

/-- The literal head of the glob pattern `frame_*.jpg` (app.py:100). -/
def framePatStart : Name := strCodes "frame_"

/-- The literal tail of the glob pattern `frame_*.jpg` (app.py:100). -/
def framePatEnd : Name := strCodes ".jpg"

/-- Whether a name matches the glob pattern `frame_*.jpg`: at least the ten
literal characters, starting with `frame_` and ending with `.jpg`. -/
def matchesFramePat (n : Name) : Bool :=
  decide (10 ≤ n.length) && decide (n.take 6 = framePatStart)
    && decide (n.drop (n.length - 4) = framePatEnd)

/-- `sorted(Path(frames_dir).glob('frame_*.jpg'))` (app.py:100): the names in
the directory that match the pattern, in code-point order. -/
def sortedGlob (fs : List Name) : List Name :=
  sortBy lexLe (fs.filter matchesFramePat)

/-- Decimal digits of `n`, most significant first, as code points
(`48 + d` is the code of digit `d`).  Structural recursion on a fuel
argument that is always sufficient (`n < 10 ^ (n + 1)`). -/
def digitsAux : Nat → Nat → List Nat
  | 0, _ => []
  | fuel + 1, n => if n < 10 then [48 + n] else digitsAux fuel (n / 10) ++ [48 + n % 10]

/-- Decimal digit code points of `n`, most significant first. -/
def digitsMSB (n : Nat) : List Nat := digitsAux (n + 1) n

/-- Python `f"{n:06d}"`: the decimal digits, left padded with `'0'` (code 48)
to at least six characters. -/
def format06 (n : Nat) : Name :=
  List.replicate (6 - (digitsMSB n).length) 48 ++ digitsMSB n

/-- `f"frame_{frame_count:06d}_{timestamp}.jpg"` (app.py:190): the staged
frame file name built from the accumulator count and a timestamp string
(code point 95 is `'_'`). -/
def frameName (seq : Nat) (ts : Name) : Name :=
  strCodes "frame_" ++ format06 seq ++ [95] ++ ts ++ strCodes ".jpg"

/-- One line group of the generated `frames_list.txt` playlist: either a
`file '...'` entry or a `duration ...` entry. -/
inductive Entry : Type
  | file (n : Name)
  | dur (q : ℚ)

/-- The `file` entries of a playlist, in order. -/
def filesOf (pl : List Entry) : List Name :=
  pl.filterMap fun e => match e with | Entry.file n => some n | Entry.dur _ => none

/-- Content of `frames_list.txt` (app.py:110-118): for each frame a `file`
entry followed by a `duration 1/fps` entry, then the last frame's `file`
entry once more (the external tool's requirement). -/
def framesListContent (files : List Name) (fps : ℚ) : List Entry :=
  (files.flatMap fun f => [Entry.file f, Entry.dur (1 / fps)]) ++
    (match files.getLast? with
     | some l => [Entry.file l]
     | none => [])

/-- The playlist file name `frames_list.txt` (app.py:109). -/
def framesListName : Name := strCodes "frames_list.txt"

/-- Writing a file into a directory: creates the name if absent, otherwise
overwrites in place. -/
def writeFile (fs : List Name) (n : Name) : List Name :=
  if n ∈ fs then fs else fs ++ [n]

/-- Oracle for one invocation of the external tool: its exit status and
whether the `subprocess.run` call raised (e.g. `TimeoutExpired`). -/
structure AsmEnv : Type where
  toolExit : Nat
  raisesExc : Bool

/-- Result of one modelled run of `create_video_from_frames`: the returned
boolean, the staging directory afterwards, whether the external tool was
invoked, the playlist written, and the globbed input frame list. -/
structure AsmResult : Type where
  success : Bool
  fs : List Name
  toolInvoked : Bool
  playlist : List Entry
  frames : List Name

/-- `create_video_from_frames(frames_dir, output_video, fps, delete_frames)`
(app.py:92-166).  Globs `frame_*.jpg`, returns failure immediately when no
frame matches (app.py:102-104); otherwise writes `frames_list.txt`
(app.py:109-118) and runs the tool.  If the call raises, the outer handler
returns failure with the playlist file left behind (app.py:164-166).
Otherwise the playlist file is removed (app.py:144); on exit status 0 the
globbed frames are deleted when `delete_frames` is set and the
`KEEP_TEMP_FRAMES` configuration is not (app.py:146-158), on nonzero exit
status nothing further happens and failure is returned (app.py:159-162). -/
def create_video_from_frames (fs : List Name) (fps : ℚ)
    (delete_frames keepTemp : Bool) (env : AsmEnv) : AsmResult :=
  let frame_files := sortedGlob fs
  if frame_files.length = 0 then
    { success := false, fs := fs, toolInvoked := false, playlist := [], frames := [] }
  else
    let playlist := framesListContent frame_files fps
    let fs1 := writeFile fs framesListName
    if env.raisesExc then
      { success := false, fs := fs1, toolInvoked := true, playlist := playlist,
        frames := frame_files }
    else
      let fs2 := fs1.erase framesListName
      if env.toolExit = 0 then
        let fs3 := if delete_frames && !keepTemp then
            fs2.filter (fun n => !(decide (n ∈ frame_files)))
          else fs2
        { success := true, fs := fs3, toolInvoked := true, playlist := playlist,
          frames := frame_files }
      else
        { success := false, fs := fs2, toolInvoked := true, playlist := playlist,
          frames := frame_files }

/-- Configuration of the recorder read once from the environment
(app.py:26-35): the batch threshold `FRAMES_PER_VIDEO`, the output frame
rate, and `KEEP_TEMP_FRAMES`. -/
structure Config : Type where
  framesPerVideo : Nat
  fps : ℚ
  keepTempFrames : Bool

/-- State of the recording loop `record_timelapse` (app.py:169-234): the
accumulator count, the video counter, the staging directory, the output
directory's artifacts, the timestamp that will name the next artifact, and a
log of the frame lists handed to each `create_video_from_frames` call. -/
structure LoopState : Type where
  frameCount : Nat
  videoCount : Nat
  fs : List Name
  artifacts : List Name
  videoStartTs : Name
  log : List (List Name)

/-- Environment of one loop iteration: the `datetime.now()` timestamp
string, whether the capture succeeded, the assembly oracle for a possible
flush, and whether a termination signal arrives during the iteration's
sleep.  A signal makes `signal_handler` (app.py:48-59) set `should_stop` and
call `sys.exit(0)`; the raised `SystemExit` is caught neither by
`except KeyboardInterrupt` nor by `except Exception` (app.py:221-224), so
the loop unwinds immediately. -/
structure LoopEnv : Type where
  ts : Name
  captureOk : Bool
  asm : AsmEnv
  sigDuringSleep : Bool

/-- `f"timelapse_{video_start_time...}.mp4"` (app.py:203). -/
def fullArtifactName (ts : Name) : Name :=
  strCodes "timelapse_" ++ ts ++ strCodes ".mp4"

/-- `f"timelapse_{video_start_time...}_partial.mp4"` (app.py:232). -/
def shutdownArtifactName (ts : Name) : Name :=
  strCodes "timelapse_" ++ ts ++ strCodes "_partial.mp4"

/-- The capture step of one iteration (app.py:189-199): on success the new
frame file is written and the accumulator is incremented; on failure the
loop just logs and retries next cycle. -/
def postCapture (s : LoopState) (e : LoopEnv) : LoopState :=
  if e.captureOk then
    { s with fs := s.fs ++ [frameName s.frameCount e.ts],
             frameCount := s.frameCount + 1 }
  else s

/-- The flush check of one iteration (app.py:202-214): when the accumulator
has reached `FRAMES_PER_VIDEO`, assemble the staging directory into a full
artifact; on success reset the accumulator and restart the batch clock, on
failure keep the frames and continue. -/
def flushCheck (cfg : Config) (s : LoopState) (e : LoopEnv) : LoopState :=
  if cfg.framesPerVideo ≤ s.frameCount then
    let r := create_video_from_frames s.fs cfg.fps true cfg.keepTempFrames e.asm
    if r.success then
      { s with fs := r.fs, log := s.log ++ [r.frames],
               artifacts := s.artifacts ++ [fullArtifactName s.videoStartTs],
               videoCount := s.videoCount + 1, frameCount := 0,
               videoStartTs := e.ts }
    else
      { s with fs := r.fs, log := s.log ++ [r.frames] }
  else s

/-- One iteration of the recording loop (app.py:186-227); the returned flag
records whether the iteration ended in the signal handler's `sys.exit(0)`
(in which case the loop body is never entered again). -/
def stepIter (cfg : Config) (s : LoopState) (e : LoopEnv) : LoopState × Bool :=
  (flushCheck cfg (postCapture s e) e, e.sigDuringSleep)

/-- The recording loop run on a finite trace of iteration environments.  The
boolean is true when the run ended by the uncaught `SystemExit` of the
signal handler; otherwise the trace was exhausted with the loop still
running.  The loop condition `not should_stop` (app.py:186) can only turn
false together with that `SystemExit`, so a normal fall-through to the
final-flush block below the loop never happens. -/
def record_timelapse_loop (cfg : Config) (s : LoopState) :
    List LoopEnv → LoopState × Bool
  | [] => (s, false)
  | e :: es =>
    let r := stepIter cfg s e
    if r.2 then (r.1, true) else record_timelapse_loop cfg r.1 es

/-- The final-flush block after the loop (app.py:229-234): if frames remain,
assemble them into an artifact named with the `_partial` suffix.  In the
program as written this block is unreachable on a termination signal,
because the handler's `SystemExit` unwinds past it. -/
def finalFlushBlock (cfg : Config) (s : LoopState) (asm : AsmEnv) : LoopState :=
  if 0 < s.frameCount then
    let r := create_video_from_frames s.fs cfg.fps true cfg.keepTempFrames asm
    if r.success then
      { s with fs := r.fs, log := s.log ++ [r.frames],
               artifacts := s.artifacts ++ [shutdownArtifactName s.videoStartTs] }
    else
      { s with fs := r.fs, log := s.log ++ [r.frames] }
  else s

/-- The loop state at the top of `record_timelapse` (app.py:176-179). -/
def initState (ts0 : Name) : LoopState :=
  { frameCount := 0, videoCount := 1, fs := [], artifacts := [],
    videoStartTs := ts0, log := [] }

/-- Largest `e` with `c * 2 ^ e ≤ a`, for `1 ≤ c ≤ a` (fuel-driven so that
concrete instances reduce in the kernel; `fuel = a` always suffices since
`e ≤ log2 a < a`). -/
def expUp : Nat → Nat → Nat → Nat
  | 0, _, _ => 0
  | fuel + 1, a, c => if c * 2 ≤ a then expUp fuel a (c * 2) + 1 else 0

/-- Least `k` with `c ≤ a * 2 ^ k`, for `1 ≤ a < c` (fuel-driven;
`fuel = c` always suffices since `c < 2 ^ c ≤ a * 2 ^ c`). -/
def expDown : Nat → Nat → Nat → Nat
  | 0, _, _ => 0
  | fuel + 1, a, c => if c ≤ a then 0 else expDown fuel (a * 2) c + 1

/-- The binary exponent of the positive rational `a / c`: the unique `e`
with `2 ^ e ≤ a / c < 2 ^ (e + 1)`. -/
def expQ (a c : Nat) : Int :=
  if c ≤ a then (expUp a a c : Int) else -(expDown c a c : Int)

/-- `n / d` rounded to the nearest integer, ties to even — one IEEE-754
rounding step on an integer quotient. -/
def rneDiv (n d : Nat) : Nat :=
  if 2 * (n % d) < d then n / d
  else if d < 2 * (n % d) then n / d + 1
  else if (n / d) % 2 = 0 then n / d else n / d + 1

/-- `int(a / c)` for Python integers `a`, `c`: the quotient is the binary64
double nearest to the exact ratio (CPython's `long_true_divide` is
correctly rounded), so its significand is `a / c` scaled into
`[2 ^ 52, 2 ^ 53]` and rounded to nearest-even; `int` then truncates the
nonnegative result toward zero.  The scaled value is `m * 2 ^ (e - 52)`
with `m = rneDiv`, so the truncation is `m / 2 ^ (52 - e)` for `e ≤ 52`
and `m * 2 ^ (e - 52)` otherwise. -/
def floatDivInt (a c : Nat) : Nat :=
  if c = 0 then 0
  else if a = 0 then 0
  else
    let e := expQ a c
    if e ≤ 52 then
      let s := ((52 : Int) - e).toNat
      rneDiv (a * 2 ^ s) c / 2 ^ s
    else
      let s := (e - 52).toNat
      rneDiv a (c * 2 ^ s) * 2 ^ s

/-- `FRAMES_PER_VIDEO = int((VIDEO_DURATION_HOURS * 3600) / CYCLE_TIME)`
(app.py:35): the `/` is Python `float` (binary64) division, so the result
is the truncated correctly rounded double quotient — equal to the exact
floor for all quotients whose rounding error stays below the distance to
the next integer, but one above it when the float rounds past (see the C2
counterexample). -/
def FRAMES_PER_VIDEO (hours cycle : Nat) : Nat := floatDivInt (hours * 3600) cycle

/-- The threshold as the specification words it: the floor of
`duration_hours * 3600 / capture_interval_seconds` as an exact quotient. -/
def thresholdSpec (hours cycle : Nat) : Nat :=
  ⌊((hours : ℚ) * 3600) / (cycle : ℚ)⌋₊

/-- Python `ZeroDivisionError`. -/
def zeroDivMsg : String := "ZeroDivisionError: division by zero"

/-- The startup path of `main` (app.py:236-267) up to the point where the
recording loop would start: computing `FRAMES_PER_VIDEO` at module load
divides by `CYCLE_TIME` (app.py:35), and the statistics block divides by
`CYCLE_TIME`, by `FRAMES_PER_VIDEO` and by `VIDEO_FPS` (app.py:255-257), in
that order, each raising `ZeroDivisionError` on a zero divisor; the raised
error is fatal (uncaught in app.py; start.py:121-123 exits with status 1).
On success the loop runs with the computed threshold. -/
def mainStartup (hours cycle fps : Nat) : Except String Nat :=
  if cycle = 0 then Except.error zeroDivMsg
  else if FRAMES_PER_VIDEO hours cycle = 0 then Except.error zeroDivMsg
  else if fps = 0 then Except.error zeroDivMsg
  else Except.ok (FRAMES_PER_VIDEO hours cycle)

/-- A legacy frame file as the migration sweep sees it
(migrate_frames.py:30-40): the timestamp parsed from its name when the
`YYYYMMDD_HHMMSS` pattern is present and valid (abstracted to an optional
epoch second), and its filesystem modification time. -/
structure MFrame : Type where
  ts : Option Int
  mtime : Int
deriving DecidableEq

/-- `get_frame_timestamp` (migrate_frames.py:30-40): the parsed timestamp,
or `None` when the name has no parseable timestamp. -/
def get_frame_timestamp (f : MFrame) : Option Int := f.ts

/-- The sort key `get_frame_timestamp(f.name) or f.stat().st_mtime`
(migrate_frames.py:49): a `datetime` when the name parses, otherwise the
`float` modification time — two CPython types with no order between them. -/
def sortKey (f : MFrame) : Sum Int Int :=
  match get_frame_timestamp f with
  | some t => Sum.inl t
  | none => Sum.inr f.mtime

/-- Comparison of two sort keys of the same kind; the cross-kind case is
never consulted because `sortFramesE` fails first (CPython raises
`TypeError` when `sorted` compares a `datetime` with a `float`). -/
def keyLe (f g : MFrame) : Bool :=
  match sortKey f, sortKey g with
  | Sum.inl a, Sum.inl b => a ≤ b
  | Sum.inr a, Sum.inr b => a ≤ b
  | _, _ => true

/-- CPython `TypeError` raised by `sorted` on the mixed-key list. -/
def sortTypeErrorMsg : String :=
  "TypeError: '<' not supported between instances of 'float' and 'datetime.datetime'"

/-- `sorted(frame_files, key=...)` (migrate_frames.py:49).  A comparison
sort must compare some pair across the datetime/float partition whenever
both kinds are present, and CPython raises `TypeError` at the first such
comparison; on a homogeneous list it sorts by the key. -/
def sortFramesE (frames : List MFrame) : Except String (List MFrame) :=
  if (frames.any fun f => (sortKey f).isLeft) ∧ (frames.any fun f => (sortKey f).isRight) then
    Except.error sortTypeErrorMsg
  else
    Except.ok (sortBy keyLe frames)

/-- The body of `group_frames_by_time`'s loop plus the trailing flush
(migrate_frames.py:49-81), processing the sorted file list with the current
group start time, the current group, and the closed groups.  The `nowTs`
parameter is `datetime.now()` in the final `group_start_time or
datetime.now()` (migrate_frames.py:79). -/
def groupGo (fpv hpg : Nat) (nowTs : Int) :
    Option Int → List MFrame → List (Option Int × List MFrame) →
    List MFrame → List (Option Int × List MFrame)
  | gstart, cur, groups, [] =>
    if cur = [] then groups
    else groups ++ [(some (gstart.getD nowTs), cur)]
  | gstart, cur, groups, f :: rest =>
    match get_frame_timestamp f with
    | some t =>
      match gstart with
      | none => groupGo fpv hpg nowTs (some t) [f] groups rest
      | some st =>
        if (hpg : ℚ) ≤ ((t - st : ℤ) : ℚ) / 3600 ∨ fpv ≤ cur.length then
          groupGo fpv hpg nowTs (some t) [f] (groups ++ [(some st, cur)]) rest
        else
          groupGo fpv hpg nowTs (some st) (cur ++ [f]) groups rest
    | none =>
      let gstart1 := if cur = [] then some f.mtime else gstart
      let cur1 := cur ++ [f]
      if fpv ≤ cur1.length then
        groupGo fpv hpg nowTs none [] (groups ++ [(gstart1, cur1)]) rest
      else
        groupGo fpv hpg nowTs gstart1 cur1 groups rest

/-- `group_frames_by_time(frame_files, hours_per_group)`
(migrate_frames.py:43-81) with the module's `FRAMES_PER_VIDEO` as `fpv`:
sort by the mixed key (raising on a heterogeneous list), then group
contiguous files until the elapsed-hours ceiling or the count threshold
closes a group. -/
def group_frames_by_time (frames : List MFrame) (hpg fpv : Nat) (nowTs : Int) :
    Except String (List (Option Int × List MFrame)) :=
  match sortFramesE frames with
  | Except.error e => Except.error e
  | Except.ok l => Except.ok (groupGo fpv hpg nowTs none [] [] l)

/-- Legacy frames with parseable timestamps spaced exactly 60 seconds
apart: frame `i` of the segment carries timestamp `t0 + 60 * (start + i)`. -/
def uniformSeg (t0 : Int) : Nat → Nat → List MFrame
  | _, 0 => []
  | start, n + 1 => { ts := some (t0 + 60 * start), mtime := 0 } :: uniformSeg t0 (start + 1) n

/-- A frame of one recorder batch, as the capture loop stages it: its
sequence number (the accumulator count at capture time, app.py:190) and its
timestamp string. -/
structure CapFrame : Type where
  seq : Nat
  ts : Name
deriving DecidableEq

/-- The base-10 digit vector of `n` in `k` positions, most significant
first, as code points (a proof-layer presentation of `f"{n:0kd}"` for
`n < 10 ^ k`). -/
def padVec : Nat → Nat → Name
  | 0, _ => []
  | k + 1, n => (48 + n / 10 ^ k) :: padVec k (n % 10 ^ k)

/-! ### Basic facts about the sort and the glob -/

theorem mem_insertSorted {le : α → α → Bool} {x a : α} :
    ∀ {l : List α}, a ∈ insertSorted le x l ↔ a = x ∨ a ∈ l
  | [] => by simp [insertSorted]
  | b :: bs => by
    by_cases h : le x b = true
    · simp [insertSorted, h]
    · simp only [insertSorted, if_neg h, List.mem_cons, mem_insertSorted (l := bs)]
      tauto

theorem mem_sortBy {le : α → α → Bool} {a : α} :
    ∀ {l : List α}, a ∈ sortBy le l ↔ a ∈ l
  | [] => Iff.rfl
  | b :: bs => by
    simp only [sortBy, List.foldr_cons, List.mem_cons]
    rw [show List.foldr (insertSorted le) [] bs = sortBy le bs from rfl] at *
    rw [mem_insertSorted, mem_sortBy (l := bs)]

theorem sortBy_sorted_id {le : α → α → Bool} :
    ∀ {l : List α}, l.Pairwise (fun a b => le a b = true) → sortBy le l = l
  | [], _ => rfl
  | b :: bs, h => by
    have htail : sortBy le bs = bs := sortBy_sorted_id (List.Pairwise.of_cons h)
    have hhead : ∀ c ∈ bs, le b c = true := fun c hc => List.rel_of_pairwise_cons h hc
    show insertSorted le b (sortBy le bs) = b :: bs
    rw [htail]
    cases bs with
    | nil => rfl
    | cons c cs => simp [insertSorted, hhead c (List.mem_cons_self c cs)]

theorem filter_append_single {p : α → Bool} {a : α} (l : List α) (h : p a = false) :
    (l ++ [a]).filter p = l.filter p := by
  simp [List.filter_append, h]

theorem filter_erase_neg {p : Name → Bool} {a : Name} :
    ∀ {l : List Name}, p a = false → (l.erase a).filter p = l.filter p
  | [], _ => rfl
  | b :: bs, h => by
    by_cases hba : b = a
    · subst hba
      simp [List.erase_cons_head, List.filter_cons, h]
    · rw [List.erase_cons_tail (by simpa using hba)]
      simp only [List.filter_cons]
      rw [filter_erase_neg (l := bs) h]

theorem filter_writeFile_neg {p : Name → Bool} {a : Name} (l : List Name)
    (h : p a = false) : (writeFile l a).filter p = l.filter p := by
  unfold writeFile
  split
  · rfl
  · exact filter_append_single l h

theorem matches_listName_false : matchesFramePat framesListName = false := by decide

/-- The staging directory seen through the `frame_*.jpg` filter is unchanged
by writing and removing the playlist file. -/
theorem filter_asm_steps (fs : List Name) :
    ((writeFile fs framesListName).erase framesListName).filter matchesFramePat
      = fs.filter matchesFramePat := by
  rw [filter_erase_neg matches_listName_false,
    filter_writeFile_neg fs matches_listName_false]

/-! ### C10: empty glob -/

/-- C10: invoking the assembler on a directory with no `frame_*.jpg` file
returns failure without invoking the external tool and without touching the
filesystem (app.py:100-104 returns before the playlist is written). -/
theorem c10_empty_glob_no_tool (fs : List Name) (fps : ℚ) (df kt : Bool)
    (env : AsmEnv) (hempty : fs.filter matchesFramePat = []) :
    create_video_from_frames fs fps df kt env
      = { success := false, fs := fs, toolInvoked := false, playlist := [],
          frames := [] } := by
  unfold create_video_from_frames sortedGlob
  rw [hempty]
  rfl

/-- C10 witness: a directory holding only a non-matching file. -/
theorem c10_empty_glob_no_tool_witness :
    ([strCodes "notes.txt"].filter matchesFramePat = []) ∧
      create_video_from_frames [strCodes "notes.txt"] 24 true false
          { toolExit := 0, raisesExc := false }
        = { success := false, fs := [strCodes "notes.txt"], toolInvoked := false,
            playlist := [], frames := [] } :=
  ⟨by decide, c10_empty_glob_no_tool _ 24 true false _ (by decide)⟩

/-! ### C4: failed assembly preserves the input frames -/

/-- C4: whenever `create_video_from_frames` reports failure — empty glob,
nonzero tool exit status, or an exception during the call — the set of
`frame_*.jpg` files on disk is exactly what it was before the invocation
(only the playlist file can be left behind or cleaned up, and it does not
match the pattern). -/
theorem c4_failed_assembly_preserves_frames (fs : List Name) (fps : ℚ)
    (df kt : Bool) (env : AsmEnv)
    (hfail : (create_video_from_frames fs fps df kt env).success = false) :
    (create_video_from_frames fs fps df kt env).fs.filter matchesFramePat
      = fs.filter matchesFramePat := by
  unfold create_video_from_frames
  by_cases h0 : (sortedGlob fs).length = 0
  · simp [h0]
  · by_cases hexc : env.raisesExc = true
    · simp only [h0, if_false, hexc, if_true]
      exact filter_writeFile_neg fs matches_listName_false
    · by_cases hexit : env.toolExit = 0
      · exfalso
        unfold create_video_from_frames at hfail
        simp [h0, hexc, hexit] at hfail
      · simp only [h0, if_false, hexc, hexit, Bool.false_eq_true, if_false]
        exact filter_asm_steps fs
  
/-- C4 witness: one staged frame, tool exits with status 1. -/
theorem c4_failed_assembly_preserves_frames_witness :
    ((create_video_from_frames [frameName 0 (strCodes "20240101_000000")] 24 true false
        { toolExit := 1, raisesExc := false }).success = false) ∧
      (create_video_from_frames [frameName 0 (strCodes "20240101_000000")] 24 true false
          { toolExit := 1, raisesExc := false }).fs.filter matchesFramePat
        = [frameName 0 (strCodes "20240101_000000")].filter matchesFramePat :=
  ⟨by decide, c4_failed_assembly_preserves_frames _ 24 true false _ (by decide)⟩

theorem mem_sortedGlob {n : Name} {fs : List Name} :
    n ∈ sortedGlob fs ↔ n ∈ fs ∧ matchesFramePat n = true := by
  rw [sortedGlob, mem_sortBy, List.mem_filter]

theorem mem_erase_writeFile {n a : Name} {fs : List Name}
    (h : n ∈ (writeFile fs a).erase a) : n ∈ fs := by
  unfold writeFile at h
  split at h
  · exact List.mem_of_mem_erase h
  · rename_i hnotin
    rwa [List.erase_append_right _ (by simpa using hnotin), List.erase_cons_head,
      List.append_nil] at h

theorem mem_erase_writeFile_of_ne {n a : Name} {fs : List Name}
    (hn : n ∈ fs) (hne : n ≠ a) : n ∈ (writeFile fs a).erase a := by
  have hw : n ∈ writeFile fs a := by
    unfold writeFile
    split
    · exact hn
    · exact List.mem_append_left _ hn
  exact (List.mem_erase_of_ne hne).mpr hw

/-! ### C7: successful assembly with deletion enabled -/

/-- C7: when an assembly succeeds and deletion is in force (the
`delete_frames` argument set and `KEEP_TEMP_FRAMES` unset), exactly the
`frame_*.jpg` files that were globbed into the batch are removed: afterwards
no frame file remains, nothing outside the original directory appears, and
every non-frame file other than the consumed playlist is untouched
(app.py:146-158).  When deletion is not in force, a successful assembly
leaves the frame files exactly as they were. -/
theorem c7_success_deletes_exactly_batch (fs : List Name) (fps : ℚ)
    (df kt : Bool) (env : AsmEnv)
    (hok : (create_video_from_frames fs fps df kt env).success = true) :
    ((df && !kt) = true →
        (∀ n ∈ (create_video_from_frames fs fps df kt env).fs,
            matchesFramePat n = false) ∧
        (∀ n ∈ (create_video_from_frames fs fps df kt env).fs, n ∈ fs) ∧
        (∀ n ∈ fs, matchesFramePat n = false → n ≠ framesListName →
            n ∈ (create_video_from_frames fs fps df kt env).fs)) ∧
      ((df && !kt) = false →
        (create_video_from_frames fs fps df kt env).fs.filter matchesFramePat
          = fs.filter matchesFramePat) := by
  by_cases h0 : (sortedGlob fs).length = 0
  · exfalso
    unfold create_video_from_frames at hok
    simp [h0] at hok
  by_cases hexc : env.raisesExc = true
  · exfalso
    unfold create_video_from_frames at hok
    simp [h0, hexc] at hok
  by_cases hexit : env.toolExit = 0
  · have hfs : (create_video_from_frames fs fps df kt env).fs
        = if df && !kt then
            ((writeFile fs framesListName).erase framesListName).filter
              (fun n => !(decide (n ∈ sortedGlob fs)))
          else (writeFile fs framesListName).erase framesListName := by
      unfold create_video_from_frames
      simp [h0, hexc, hexit]
    constructor
    · intro hdel
      rw [hfs, if_pos hdel]
      refine ⟨?_, ?_, ?_⟩
      · intro n hn
        rw [List.mem_filter] at hn
        obtain ⟨hn2, hnot⟩ := hn
        by_contra hmat
        have hmem : n ∈ sortedGlob fs :=
          mem_sortedGlob.mpr ⟨mem_erase_writeFile hn2, by simpa using hmat⟩
        simp [hmem] at hnot
      · intro n hn
        exact mem_erase_writeFile (List.mem_filter.mp hn).1
      · intro n hn hmat hne
        rw [List.mem_filter]
        refine ⟨mem_erase_writeFile_of_ne hn hne, ?_⟩
        have : n ∉ sortedGlob fs := fun hmem => by
          have := (mem_sortedGlob.mp hmem).2
          rw [hmat] at this
          exact Bool.false_ne_true this
        simp [this]
    · intro hnodel
      rw [hfs, if_neg (by simp [hnodel])]
      exact filter_asm_steps fs
  · exfalso
    unfold create_video_from_frames at hok
    simp [h0, hexc, hexit] at hok

/-- C7 witness: one staged frame next to an unrelated file, tool succeeds,
deletion in force. -/
theorem c7_success_deletes_exactly_batch_witness :
    ((create_video_from_frames
        [frameName 0 (strCodes "20240101_000000"), strCodes "notes.txt"] 24 true false
        { toolExit := 0, raisesExc := false }).success = true) ∧
      ((true && !false) = true →
          (∀ n ∈ (create_video_from_frames
              [frameName 0 (strCodes "20240101_000000"), strCodes "notes.txt"] 24 true false
              { toolExit := 0, raisesExc := false }).fs, matchesFramePat n = false) ∧
          (∀ n ∈ (create_video_from_frames
              [frameName 0 (strCodes "20240101_000000"), strCodes "notes.txt"] 24 true false
              { toolExit := 0, raisesExc := false }).fs,
            n ∈ [frameName 0 (strCodes "20240101_000000"), strCodes "notes.txt"]) ∧
          (∀ n ∈ [frameName 0 (strCodes "20240101_000000"), strCodes "notes.txt"],
            matchesFramePat n = false → n ≠ framesListName →
            n ∈ (create_video_from_frames
              [frameName 0 (strCodes "20240101_000000"), strCodes "notes.txt"] 24 true false
              { toolExit := 0, raisesExc := false }).fs)) ∧
        ((true && !false) = false →
          (create_video_from_frames
              [frameName 0 (strCodes "20240101_000000"), strCodes "notes.txt"] 24 true false
              { toolExit := 0, raisesExc := false }).fs.filter matchesFramePat
            = [frameName 0 (strCodes "20240101_000000"),
                strCodes "notes.txt"].filter matchesFramePat) :=
  ⟨by decide, c7_success_deletes_exactly_batch _ 24 true false _ (by decide)⟩

/-! ### C2: the batch threshold and startup rejection -/

theorem expUp_spec : ∀ (fuel a c : Nat), c ≤ a → c * 2 ^ expUp fuel a c ≤ a
  | 0, a, c, h => by simpa [expUp] using h
  | fuel + 1, a, c, h => by
    by_cases h2 : c * 2 ≤ a
    · have hrec := expUp_spec fuel a (c * 2) h2
      simp only [expUp, if_pos h2]
      calc c * 2 ^ (expUp fuel a (c * 2) + 1) = c * 2 * 2 ^ expUp fuel a (c * 2) := by ring
        _ ≤ a := hrec
    · simp only [expUp, if_neg h2]
      simpa using h

theorem expDown_spec : ∀ (fuel a c : Nat), c ≤ a * 2 ^ fuel → c ≤ a * 2 ^ expDown fuel a c
  | 0, a, c, h => by simpa [expDown] using h
  | fuel + 1, a, c, h => by
    by_cases h2 : c ≤ a
    · simp only [expDown, if_pos h2]
      simpa using h2
    · simp only [expDown, if_neg h2]
      have hrec := expDown_spec fuel (a * 2) c (by
        calc c ≤ a * 2 ^ (fuel + 1) := h
          _ = a * 2 * 2 ^ fuel := by ring)
      calc c ≤ a * 2 * 2 ^ expDown fuel (a * 2) c := hrec
        _ = a * 2 ^ (expDown fuel (a * 2) c + 1) := by ring

/-- The chosen exponent never overshoots: `2 ^ e ≤ a / c` in integer form
(the only property of `expQ` the floor theorem needs). -/
theorem expQ_spec (a c : Nat) (ha : 0 < a) (_hc : 0 < c) :
    c * 2 ^ (expQ a c).toNat ≤ a * 2 ^ (-(expQ a c)).toNat := by
  unfold expQ
  by_cases h : c ≤ a
  · rw [if_pos h]
    simp only [Int.toNat_natCast]
    have h2 : (-((expUp a a c : Nat) : Int)).toNat = 0 := by omega
    rw [h2, pow_zero, Nat.mul_one]
    exact expUp_spec a a c h
  · rw [if_neg h]
    have h1 : ((-((expDown c a c : Nat) : Int))).toNat = 0 := by omega
    have h2 : (-(-((expDown c a c : Nat) : Int))).toNat = expDown c a c := by omega
    rw [h1, h2, pow_zero]
    have hfuel : c ≤ a * 2 ^ c := by
      have := Nat.lt_two_pow c
      have h3 : 2 ^ c ≤ a * 2 ^ c := Nat.le_mul_of_pos_left _ ha
      omega
    simpa using expDown_spec c a c hfuel

/-- Round-to-nearest-even sits within half an ulp of the exact quotient:
`|rneDiv n d - n / d| ≤ 1 / 2`, in integer form. -/
theorem rneDiv_bounds (n d : Nat) (hd : 0 < d) :
    n / d ≤ rneDiv n d ∧ rneDiv n d ≤ n / d + 1 ∧
      2 * (rneDiv n d * d) ≤ 2 * n + d ∧ 2 * n ≤ 2 * (rneDiv n d * d) + d := by
  have hdm : n / d * d + n % d = n := Nat.div_add_mod' n d
  have hrem : n % d < d := Nat.mod_lt n hd
  have hdist : (n / d + 1) * d = n / d * d + d := by ring
  unfold rneDiv
  split_ifs <;> refine ⟨by omega, by omega, ?_, ?_⟩ <;> omega

/-- Below `2 ^ 53` the truncated correctly rounded quotient is the exact
floor: rounding up past the next integer `k + 1` would need the half-ulp
`2 ^ (e - 53)` to cover the gap `(c - a % c) / c ≥ 1 / c`, forcing
`a ≥ c * 2 ^ e ≥ 2 ^ 53`. -/
theorem floatDivInt_floor (a c : Nat) (ha : 0 < a) (hc : 0 < c) (hbound : a < 2 ^ 53) :
    floatDivInt a c = a / c := by
  unfold floatDivInt
  rw [if_neg (by omega), if_neg (by omega)]
  have hE := expQ_spec a c ha hc
  have he52 : expQ a c ≤ 52 := by
    by_contra hgt
    push_neg at hgt
    have h1 : 53 ≤ (expQ a c).toNat := by omega
    have h2 : (-(expQ a c)).toNat = 0 := by omega
    rw [h2, pow_zero, Nat.mul_one] at hE
    have h3 : (2 : Nat) ^ 53 ≤ 2 ^ (expQ a c).toNat := Nat.pow_le_pow_right (by norm_num) h1
    have h4 : (2 : Nat) ^ (expQ a c).toNat ≤ c * 2 ^ (expQ a c).toNat :=
      Nat.le_mul_of_pos_left _ hc
    omega
  rw [if_pos he52]
  obtain ⟨hm1, hm2, hm3, hm4⟩ := rneDiv_bounds (a * 2 ^ ((52 : Int) - expQ a c).toNat) c hc
  refine Nat.div_eq_of_lt_le ?_ ?_
  · have hkc : a / c * c ≤ a := Nat.div_mul_le_self a c
    have hmul : (a / c * 2 ^ ((52 : Int) - expQ a c).toNat) * c
        ≤ a * 2 ^ ((52 : Int) - expQ a c).toNat := by
      calc (a / c * 2 ^ ((52 : Int) - expQ a c).toNat) * c
          = (a / c * c) * 2 ^ ((52 : Int) - expQ a c).toNat := by ring
        _ ≤ a * 2 ^ ((52 : Int) - expQ a c).toNat := Nat.mul_le_mul_right _ hkc
    exact le_trans ((Nat.le_div_iff_mul_le hc).mpr hmul) hm1
  · by_contra hge
    push_neg at hge
    have hr : a % c < c := Nat.mod_lt a hc
    have hn : a / c * c + a % c = a := Nat.div_add_mod' a c
    have hmc : (a / c + 1) * 2 ^ ((52 : Int) - expQ a c).toNat * c
        ≤ rneDiv (a * 2 ^ ((52 : Int) - expQ a c).toNat) c * c :=
      Nat.mul_le_mul_right _ hge
    have hbig : 2 ^ (((52 : Int) - expQ a c).toNat + 1) ≤ c := by
      have e1 : (a / c + 1) * 2 ^ ((52 : Int) - expQ a c).toNat * c
          = (a / c * c) * 2 ^ ((52 : Int) - expQ a c).toNat
            + c * 2 ^ ((52 : Int) - expQ a c).toNat := by ring
      have e2 : a * 2 ^ ((52 : Int) - expQ a c).toNat
          = (a / c * c) * 2 ^ ((52 : Int) - expQ a c).toNat
            + (a % c) * 2 ^ ((52 : Int) - expQ a c).toNat := by
        rw [← Nat.add_mul, hn]
      have e3 : (a % c) * 2 ^ ((52 : Int) - expQ a c).toNat
          ≤ (c - 1) * 2 ^ ((52 : Int) - expQ a c).toNat :=
        Nat.mul_le_mul_right _ (by omega)
      have e4 : (c - 1) * 2 ^ ((52 : Int) - expQ a c).toNat
          = c * 2 ^ ((52 : Int) - expQ a c).toNat
            - 2 ^ ((52 : Int) - expQ a c).toNat := by
        rw [Nat.sub_mul, Nat.one_mul]
      have e5 : 2 ^ ((52 : Int) - expQ a c).toNat
          ≤ c * 2 ^ ((52 : Int) - expQ a c).toNat :=
        Nat.le_mul_of_pos_left _ hc
      have e6 : 2 ^ (((52 : Int) - expQ a c).toNat + 1)
          = 2 * 2 ^ ((52 : Int) - expQ a c).toNat := by ring
      omega
    have hst : ((52 : Int) - expQ a c).toNat + 1 + (expQ a c).toNat
        = 53 + (-(expQ a c)).toNat := by omega
    have hchain : 2 ^ (((52 : Int) - expQ a c).toNat + 1) * 2 ^ (expQ a c).toNat
        ≤ a * 2 ^ (-(expQ a c)).toNat :=
      le_trans (Nat.mul_le_mul_right _ hbig) hE
    rw [← pow_add, hst, pow_add] at hchain
    have hfin : 2 ^ 53 ≤ a :=
      Nat.le_of_mul_le_mul_right hchain (Nat.pos_pow_of_pos _ (by norm_num))
    omega

/-- The specification's floor, as a natural-number division. -/
theorem thresholdSpec_eq_div (hours cycle : Nat) :
    thresholdSpec hours cycle = hours * 3600 / cycle := by
  unfold thresholdSpec
  rw [show ((hours : ℚ) * 3600) = ((hours * 3600 : ℕ) : ℚ) by push_cast; ring]
  exact Nat.floor_div_eq_div (hours * 3600) cycle

/-- C2 counterexample: at `VIDEO_DURATION_HOURS = 10000000000007`,
`CYCLE_TIME = 7` the quotient `36000000000025200 / 7` lies in
`[2 ^ 52, 2 ^ 53)`, where doubles are exactly the integers; the fractional
part `6 / 7` rounds the float up to the next integer, so
`int((h * 3600) / c)` is `5142857142860743` — one more than the exact
floor `5142857142860742`.  The claimed universal floor identity is false
at this positive-integer configuration. -/
theorem c2_float_division_exceeds_floor :
    FRAMES_PER_VIDEO 10000000000007 7 = 5142857142860743 ∧
      thresholdSpec 10000000000007 7 = 5142857142860742 ∧
      FRAMES_PER_VIDEO 10000000000007 7 ≠ thresholdSpec 10000000000007 7 := by
  have h : thresholdSpec 10000000000007 7 = 5142857142860742 := by
    rw [thresholdSpec_eq_div]
  refine ⟨by decide, h, ?_⟩
  rw [h]
  decide

/-- C2 as amended: the threshold computed at module load (app.py:35) is the
truncation of the correctly rounded binary64 quotient, which equals the
floor of `duration_hours * 3600 / interval` whenever
`duration_hours * 3600 < 2 ^ 53` (every configuration below the float's
53-bit rollover) but can exceed it by one beyond; and whenever the
computed value is below 1 the startup path dies with a `ZeroDivisionError`
in the statistics block (app.py:256 divides by `FRAMES_PER_VIDEO`) before
`record_timelapse` is ever entered, so the configuration is rejected
fatally at startup. -/
theorem c2_threshold_floor_and_startup_reject (hours cycle fps : Nat)
    (hh : 0 < hours) (hc : 0 < cycle) :
    (hours * 3600 < 2 ^ 53 →
        FRAMES_PER_VIDEO hours cycle = thresholdSpec hours cycle) ∧
      (FRAMES_PER_VIDEO hours cycle < 1 →
        mainStartup hours cycle fps = Except.error zeroDivMsg) := by
  constructor
  · intro hrange
    rw [thresholdSpec_eq_div]
    exact floatDivInt_floor (hours * 3600) cycle
      (Nat.mul_pos hh (by norm_num)) hc hrange
  · intro hlt
    unfold mainStartup
    rw [if_neg (by omega), if_pos (by omega)]

/-- C2 witness: one hour of footage at a two-hour capture interval gives
threshold 0 (the float quotient is exactly 0.5, truncated to 0), which the
startup path rejects. -/
theorem c2_threshold_floor_and_startup_reject_witness :
    (0 < 1 ∧ 0 < 7200 ∧ 1 * 3600 < 2 ^ 53 ∧ FRAMES_PER_VIDEO 1 7200 < 1) ∧
      (FRAMES_PER_VIDEO 1 7200 = thresholdSpec 1 7200 ∧
        mainStartup 1 7200 24 = Except.error zeroDivMsg) :=
  ⟨⟨by decide, by decide, by decide, by decide⟩,
    (c2_threshold_floor_and_startup_reject 1 7200 24 (by decide) (by decide)).1
      (by decide),
    (c2_threshold_floor_and_startup_reject 1 7200 24 (by decide) (by decide)).2
      (by decide)⟩

/-! ### Facts about one loop iteration -/

/-- The globbed frame list reported by the assembler is always the sorted
`frame_*.jpg` content of the directory at call time. -/
theorem asm_frames (fs : List Name) (fps : ℚ) (df kt : Bool) (env : AsmEnv) :
    (create_video_from_frames fs fps df kt env).frames = sortedGlob fs := by
  unfold create_video_from_frames
  by_cases h0 : (sortedGlob fs).length = 0
  · simp only [h0, if_true]
    exact (List.length_eq_zero.mp h0).symm
  · by_cases hexc : env.raisesExc = true
    · simp [h0, hexc]
    · by_cases hexit : env.toolExit = 0 <;> simp [h0, hexc, hexit]

theorem postCapture_count (s : LoopState) (e : LoopEnv) :
    (postCapture s e).frameCount
      = s.frameCount + (if e.captureOk then 1 else 0) := by
  unfold postCapture
  split <;> simp

theorem postCapture_log (s : LoopState) (e : LoopEnv) :
    (postCapture s e).log = s.log := by
  unfold postCapture
  split <;> rfl

theorem postCapture_fs_mem {n : Name} {s : LoopState} (e : LoopEnv)
    (h : n ∈ s.fs) : n ∈ (postCapture s e).fs := by
  unfold postCapture
  split
  · exact List.mem_append_left _ h
  · exact h

/-- With the threshold reached, the iteration logs exactly the globbed
directory content as the assembler's input. -/
theorem flushCheck_log (cfg : Config) (s : LoopState) (e : LoopEnv)
    (htrig : cfg.framesPerVideo ≤ s.frameCount) :
    (flushCheck cfg s e).log = s.log ++ [sortedGlob s.fs] := by
  unfold flushCheck
  rw [if_pos htrig]
  by_cases hs : (create_video_from_frames s.fs cfg.fps true cfg.keepTempFrames
      e.asm).success = true <;>
    simp [hs, asm_frames]

theorem flushCheck_fs (cfg : Config) (s : LoopState) (e : LoopEnv)
    (htrig : cfg.framesPerVideo ≤ s.frameCount) :
    (flushCheck cfg s e).fs
      = (create_video_from_frames s.fs cfg.fps true cfg.keepTempFrames e.asm).fs := by
  unfold flushCheck
  rw [if_pos htrig]
  by_cases hs : (create_video_from_frames s.fs cfg.fps true cfg.keepTempFrames
      e.asm).success = true <;>
    simp [hs]

theorem flushCheck_count_fail (cfg : Config) (s : LoopState) (e : LoopEnv)
    (htrig : cfg.framesPerVideo ≤ s.frameCount)
    (hfail : (create_video_from_frames s.fs cfg.fps true cfg.keepTempFrames
      e.asm).success = false) :
    (flushCheck cfg s e).frameCount = s.frameCount := by
  unfold flushCheck
  rw [if_pos htrig]
  simp [hfail]

/-- With `KEEP_TEMP_FRAMES` set, no invocation of the assembler removes a
`frame_*.jpg` file (app.py:150 guards the deletion loop). -/
theorem asm_keep_frames (fs : List Name) (fps : ℚ) (df : Bool) (env : AsmEnv)
    {n : Name} (hn : n ∈ fs) (hmat : matchesFramePat n = true) :
    n ∈ (create_video_from_frames fs fps df true env).fs := by
  have hne : n ≠ framesListName := fun h => by
    rw [h, matches_listName_false] at hmat
    exact Bool.false_ne_true hmat
  unfold create_video_from_frames
  by_cases h0 : (sortedGlob fs).length = 0
  · simpa [h0] using hn
  · by_cases hexc : env.raisesExc = true
    · simp only [h0, if_false, hexc, if_true]
      unfold writeFile
      split
      · exact hn
      · exact List.mem_append_left _ hn
    · by_cases hexit : env.toolExit = 0 <;>
        simpa [h0, hexc, hexit] using mem_erase_writeFile_of_ne hn hne

/-- A failed assembler invocation leaves the `frame_*.jpg` content of the
directory unchanged (helper shared by the loop-level results). -/
theorem asm_fail_filter (fs : List Name) (fps : ℚ) (df kt : Bool) (env : AsmEnv)
    (hfail : (create_video_from_frames fs fps df kt env).success = false) :
    (create_video_from_frames fs fps df kt env).fs.filter matchesFramePat
      = fs.filter matchesFramePat := by
  unfold create_video_from_frames
  by_cases h0 : (sortedGlob fs).length = 0
  · simp [h0]
  · by_cases hexc : env.raisesExc = true
    · simp only [h0, if_false, hexc, if_true]
      exact filter_writeFile_neg fs matches_listName_false
    · by_cases hexit : env.toolExit = 0
      · exfalso
        unfold create_video_from_frames at hfail
        simp [h0, hexc, hexit] at hfail
      · simp only [h0, if_false, hexc, hexit, Bool.false_eq_true, if_false]
        exact filter_asm_steps fs

/-! ### C9: a flush consumes the directory, not the counter -/

/-- C9: when the threshold check fires, the frame list handed to the
assembler is exactly the sorted `frame_*.jpg` content of the staging
directory at flush time (app.py:100 globs the directory rather than using
the accumulator); and with `KEEP_TEMP_FRAMES` set every one of those files
survives the flush, so any later flush globs them again into its own
artifact. -/
theorem c9_flush_globs_directory (cfg : Config) (s : LoopState) (e : LoopEnv)
    (hkeep : cfg.keepTempFrames = true)
    (htrig : cfg.framesPerVideo ≤ (postCapture s e).frameCount) :
    (stepIter cfg s e).1.log = s.log ++ [sortedGlob (postCapture s e).fs] ∧
    (∀ n ∈ (postCapture s e).fs, matchesFramePat n = true →
        n ∈ (stepIter cfg s e).1.fs) ∧
    (∀ n ∈ sortedGlob (postCapture s e).fs, n ∈ (stepIter cfg s e).1.fs) ∧
    (∀ e2 : LoopEnv,
      cfg.framesPerVideo ≤ (postCapture (stepIter cfg s e).1 e2).frameCount →
        (stepIter cfg (stepIter cfg s e).1 e2).1.log
            = (stepIter cfg s e).1.log
                ++ [sortedGlob (postCapture (stepIter cfg s e).1 e2).fs] ∧
          ∀ n ∈ sortedGlob (postCapture s e).fs,
            n ∈ sortedGlob (postCapture (stepIter cfg s e).1 e2).fs) := by
  have hstep : (stepIter cfg s e).1 = flushCheck cfg (postCapture s e) e := rfl
  have hmem : ∀ n ∈ (postCapture s e).fs, matchesFramePat n = true →
      n ∈ (stepIter cfg s e).1.fs := by
    intro n hn hmat
    rw [hstep, flushCheck_fs cfg _ e htrig, hkeep]
    exact asm_keep_frames _ cfg.fps true e.asm hn hmat
  have hmemGlob : ∀ n ∈ sortedGlob (postCapture s e).fs,
      n ∈ (stepIter cfg s e).1.fs := by
    intro n hn
    obtain ⟨hn', hmat⟩ := mem_sortedGlob.mp hn
    exact hmem n hn' hmat
  refine ⟨?_, hmem, hmemGlob, ?_⟩
  · rw [hstep, flushCheck_log cfg _ e htrig, postCapture_log]
  · intro e2 htrig2
    constructor
    · rw [show (stepIter cfg (stepIter cfg s e).1 e2).1
          = flushCheck cfg (postCapture (stepIter cfg s e).1 e2) e2 from rfl,
        flushCheck_log cfg _ e2 htrig2, postCapture_log]
    · intro n hn
      obtain ⟨_, hmat⟩ := mem_sortedGlob.mp hn
      exact mem_sortedGlob.mpr ⟨postCapture_fs_mem e2 (hmemGlob n hn), hmat⟩

/-- C9 witness: threshold 1 with retention on; the first capture triggers a
flush whose input is the globbed directory. -/
theorem c9_flush_globs_directory_witness :
    ((Config.mk 1 24 true).keepTempFrames = true ∧
      (Config.mk 1 24 true).framesPerVideo
        ≤ (postCapture (initState (strCodes "a"))
            (LoopEnv.mk (strCodes "b") true (AsmEnv.mk 0 false) false)).frameCount) ∧
    ((stepIter (Config.mk 1 24 true) (initState (strCodes "a"))
          (LoopEnv.mk (strCodes "b") true (AsmEnv.mk 0 false) false)).1.log
        = (initState (strCodes "a")).log
            ++ [sortedGlob (postCapture (initState (strCodes "a"))
                  (LoopEnv.mk (strCodes "b") true (AsmEnv.mk 0 false) false)).fs] ∧
      (∀ n ∈ (postCapture (initState (strCodes "a"))
            (LoopEnv.mk (strCodes "b") true (AsmEnv.mk 0 false) false)).fs,
          matchesFramePat n = true →
          n ∈ (stepIter (Config.mk 1 24 true) (initState (strCodes "a"))
                (LoopEnv.mk (strCodes "b") true (AsmEnv.mk 0 false) false)).1.fs) ∧
      (∀ n ∈ sortedGlob (postCapture (initState (strCodes "a"))
            (LoopEnv.mk (strCodes "b") true (AsmEnv.mk 0 false) false)).fs,
          n ∈ (stepIter (Config.mk 1 24 true) (initState (strCodes "a"))
                (LoopEnv.mk (strCodes "b") true (AsmEnv.mk 0 false) false)).1.fs) ∧
      (∀ e2 : LoopEnv,
        (Config.mk 1 24 true).framesPerVideo
            ≤ (postCapture (stepIter (Config.mk 1 24 true) (initState (strCodes "a"))
                  (LoopEnv.mk (strCodes "b") true (AsmEnv.mk 0 false) false)).1
                e2).frameCount →
          (stepIter (Config.mk 1 24 true)
                (stepIter (Config.mk 1 24 true) (initState (strCodes "a"))
                  (LoopEnv.mk (strCodes "b") true (AsmEnv.mk 0 false) false)).1 e2).1.log
              = (stepIter (Config.mk 1 24 true) (initState (strCodes "a"))
                  (LoopEnv.mk (strCodes "b") true (AsmEnv.mk 0 false) false)).1.log
                  ++ [sortedGlob (postCapture
                        (stepIter (Config.mk 1 24 true) (initState (strCodes "a"))
                          (LoopEnv.mk (strCodes "b") true (AsmEnv.mk 0 false) false)).1
                        e2).fs] ∧
            ∀ n ∈ sortedGlob (postCapture (initState (strCodes "a"))
                  (LoopEnv.mk (strCodes "b") true (AsmEnv.mk 0 false) false)).fs,
              n ∈ sortedGlob (postCapture
                    (stepIter (Config.mk 1 24 true) (initState (strCodes "a"))
                      (LoopEnv.mk (strCodes "b") true (AsmEnv.mk 0 false) false)).1
                    e2).fs)) :=
  ⟨⟨rfl, by decide⟩,
    c9_flush_globs_directory (Config.mk 1 24 true) (initState (strCodes "a"))
      (LoopEnv.mk (strCodes "b") true (AsmEnv.mk 0 false) false) rfl (by decide)⟩

/-! ### C5: what actually happens after an assembly failure -/

/-- C5 counterexample: threshold 2; the second capture triggers an assembly
that fails (tool exit 1), and on the very next cycle — even though the
capture fails and the accumulator is never reset — the loop invokes the
assembler again on exactly the same batch.  The claim that no second
assembly invocation occurs for that batch without an intervening
accumulator reset is therefore false. -/
theorem c5_same_batch_reassembled :
    (record_timelapse_loop (Config.mk 2 24 false) (initState (strCodes "t0"))
        [LoopEnv.mk (strCodes "t1") true (AsmEnv.mk 1 false) false,
         LoopEnv.mk (strCodes "t2") true (AsmEnv.mk 1 false) false,
         LoopEnv.mk (strCodes "t3") false (AsmEnv.mk 1 false) false]).1.log
      = [[frameName 0 (strCodes "t1"), frameName 1 (strCodes "t2")],
         [frameName 0 (strCodes "t1"), frameName 1 (strCodes "t2")]] ∧
    (record_timelapse_loop (Config.mk 2 24 false) (initState (strCodes "t0"))
        [LoopEnv.mk (strCodes "t1") true (AsmEnv.mk 1 false) false,
         LoopEnv.mk (strCodes "t2") true (AsmEnv.mk 1 false) false,
         LoopEnv.mk (strCodes "t3") false (AsmEnv.mk 1 false) false]).1.frameCount
      = 2 := by
  constructor <;> decide

/-- C5 as the code has it: after a failed flush the loop keeps the frames
and the accumulator count, continues capturing into the still-open batch —
and, because the count stays at or above the threshold, re-attempts
assembly of that same (possibly grown) batch on every following cycle until
one succeeds; the accumulator resets only on success (app.py:202-214). -/
theorem c5_failure_keeps_accumulating (cfg : Config) (s : LoopState) (e : LoopEnv)
    (htrig : cfg.framesPerVideo ≤ (postCapture s e).frameCount)
    (hfail : (create_video_from_frames (postCapture s e).fs cfg.fps true
      cfg.keepTempFrames e.asm).success = false) :
    (stepIter cfg s e).1.frameCount = (postCapture s e).frameCount ∧
    (stepIter cfg s e).1.fs.filter matchesFramePat
        = (postCapture s e).fs.filter matchesFramePat ∧
    (stepIter cfg s e).1.log = s.log ++ [sortedGlob (postCapture s e).fs] ∧
    (∀ e2 : LoopEnv, (stepIter cfg (stepIter cfg s e).1 e2).1.log.length
        = (stepIter cfg s e).1.log.length + 1) := by
  have hstep : (stepIter cfg s e).1 = flushCheck cfg (postCapture s e) e := rfl
  have hcount : (stepIter cfg s e).1.frameCount = (postCapture s e).frameCount := by
    rw [hstep]
    exact flushCheck_count_fail cfg _ e htrig hfail
  refine ⟨hcount, ?_, ?_, ?_⟩
  · rw [hstep, flushCheck_fs cfg _ e htrig]
    exact asm_fail_filter _ cfg.fps true cfg.keepTempFrames e.asm hfail
  · rw [hstep, flushCheck_log cfg _ e htrig, postCapture_log]
  · intro e2
    have htrig2 : cfg.framesPerVideo
        ≤ (postCapture (stepIter cfg s e).1 e2).frameCount := by
      rw [postCapture_count, hcount]
      split <;> omega
    rw [show (stepIter cfg (stepIter cfg s e).1 e2).1
        = flushCheck cfg (postCapture (stepIter cfg s e).1 e2) e2 from rfl,
      flushCheck_log cfg _ e2 htrig2, postCapture_log]
    simp

/-- C5 witness for the amended statement: threshold 1, first capture
triggers a flush, the tool fails. -/
theorem c5_failure_keeps_accumulating_witness :
    ((Config.mk 1 24 false).framesPerVideo
        ≤ (postCapture (initState (strCodes "a"))
            (LoopEnv.mk (strCodes "b") true (AsmEnv.mk 1 false) false)).frameCount ∧
      (create_video_from_frames
          (postCapture (initState (strCodes "a"))
            (LoopEnv.mk (strCodes "b") true (AsmEnv.mk 1 false) false)).fs
          (Config.mk 1 24 false).fps true
          (Config.mk 1 24 false).keepTempFrames
          (LoopEnv.mk (strCodes "b") true (AsmEnv.mk 1 false) false).asm).success
        = false) ∧
    ((stepIter (Config.mk 1 24 false) (initState (strCodes "a"))
          (LoopEnv.mk (strCodes "b") true (AsmEnv.mk 1 false) false)).1.frameCount
        = (postCapture (initState (strCodes "a"))
            (LoopEnv.mk (strCodes "b") true (AsmEnv.mk 1 false) false)).frameCount ∧
      (stepIter (Config.mk 1 24 false) (initState (strCodes "a"))
          (LoopEnv.mk (strCodes "b") true (AsmEnv.mk 1 false) false)).1.fs.filter
            matchesFramePat
        = (postCapture (initState (strCodes "a"))
            (LoopEnv.mk (strCodes "b") true
              (AsmEnv.mk 1 false) false)).fs.filter matchesFramePat ∧
      (stepIter (Config.mk 1 24 false) (initState (strCodes "a"))
          (LoopEnv.mk (strCodes "b") true (AsmEnv.mk 1 false) false)).1.log
        = (initState (strCodes "a")).log
            ++ [sortedGlob (postCapture (initState (strCodes "a"))
                  (LoopEnv.mk (strCodes "b") true (AsmEnv.mk 1 false) false)).fs] ∧
      (∀ e2 : LoopEnv,
        (stepIter (Config.mk 1 24 false)
              (stepIter (Config.mk 1 24 false) (initState (strCodes "a"))
                (LoopEnv.mk (strCodes "b") true (AsmEnv.mk 1 false) false)).1
              e2).1.log.length
          = (stepIter (Config.mk 1 24 false) (initState (strCodes "a"))
              (LoopEnv.mk (strCodes "b") true
                (AsmEnv.mk 1 false) false)).1.log.length + 1)) :=
  ⟨⟨by decide, by decide⟩,
    c5_failure_keeps_accumulating (Config.mk 1 24 false) (initState (strCodes "a"))
      (LoopEnv.mk (strCodes "b") true (AsmEnv.mk 1 false) false)
      (by decide) (by decide)⟩

/-! ### C1: what a termination signal actually does -/

set_option maxRecDepth 40000 in
set_option maxHeartbeats 1000000 in
/-- C1: a run in which 37 frames are captured and a termination signal then
arrives during the sleep.  The handler's `sys.exit(0)` (app.py:59) raises
`SystemExit`, which neither `except KeyboardInterrupt` nor
`except Exception` (app.py:221-224) catches, so the run ends immediately:
no artifact at all is produced, even though 37 frames (fewer than the 1440
threshold) are accumulated.  Had control reached the final-flush block
below the loop (app.py:229-234), it would have produced exactly one
artifact carrying the distinct `_partial` name — the block the claim and
the code's own comment describe, which this exit path makes unreachable. -/
theorem c1_shutdown_flush_unreachable :
    (record_timelapse_loop (Config.mk 1440 24 false) (initState (strCodes "t0"))
        (List.replicate 36 (LoopEnv.mk (strCodes "t") true (AsmEnv.mk 0 false) false)
          ++ [LoopEnv.mk (strCodes "t") true (AsmEnv.mk 0 false) true])).2 = true ∧
    (record_timelapse_loop (Config.mk 1440 24 false) (initState (strCodes "t0"))
        (List.replicate 36 (LoopEnv.mk (strCodes "t") true (AsmEnv.mk 0 false) false)
          ++ [LoopEnv.mk (strCodes "t") true (AsmEnv.mk 0 false) true])).1.frameCount
      = 37 ∧
    (0 < 37 ∧ 37 < 1440) ∧
    (record_timelapse_loop (Config.mk 1440 24 false) (initState (strCodes "t0"))
        (List.replicate 36 (LoopEnv.mk (strCodes "t") true (AsmEnv.mk 0 false) false)
          ++ [LoopEnv.mk (strCodes "t") true (AsmEnv.mk 0 false) true])).1.artifacts
      = [] ∧
    (finalFlushBlock (Config.mk 1440 24 false)
        (record_timelapse_loop (Config.mk 1440 24 false) (initState (strCodes "t0"))
          (List.replicate 36 (LoopEnv.mk (strCodes "t") true (AsmEnv.mk 0 false) false)
            ++ [LoopEnv.mk (strCodes "t") true (AsmEnv.mk 0 false) true])).1
        (AsmEnv.mk 0 false)).artifacts
      = [shutdownArtifactName (strCodes "t0")] := by
  refine ⟨by decide, by decide, by decide, by decide, by decide⟩

/-! ### Decimal formatting and the code-point order of frame names -/

theorem lexLe_append_left : ∀ (p u v : Name), lexLe (p ++ u) (p ++ v) = lexLe u v
  | [], _, _ => rfl
  | a :: p, u, v => by
    show (if a < a then true else if a = a then lexLe (p ++ u) (p ++ v) else false)
        = lexLe u v
    rw [if_neg (lt_irrefl a), if_pos rfl, lexLe_append_left p u v]

theorem digitsAux_fuel : ∀ (n f1 f2 : Nat), n < f1 → n < f2 →
    digitsAux f1 n = digitsAux f2 n := by
  intro n
  induction n using Nat.strong_induction_on with
  | _ n ih =>
    intro f1 f2 h1 h2
    match f1, f2 with
    | a + 1, b + 1 =>
      show (if n < 10 then [48 + n] else digitsAux a (n / 10) ++ [48 + n % 10])
          = (if n < 10 then [48 + n] else digitsAux b (n / 10) ++ [48 + n % 10])
      by_cases h : n < 10
      · rw [if_pos h, if_pos h]
      · rw [if_neg h, if_neg h,
          ih (n / 10) (by omega) a b (by omega) (by omega)]

theorem digitsMSB_unfold (n : Nat) :
    digitsMSB n = if n < 10 then [48 + n]
      else digitsMSB (n / 10) ++ [48 + n % 10] := by
  show (if n < 10 then [48 + n] else digitsAux n (n / 10) ++ [48 + n % 10]) = _
  by_cases h : n < 10
  · rw [if_pos h, if_pos h]
  · rw [if_neg h, if_neg h,
      digitsAux_fuel (n / 10) n (n / 10 + 1) (by omega) (by omega)]
    rfl

theorem digitsMSB_1 {n : Nat} (h : n < 10) : digitsMSB n = [48 + n] := by
  rw [digitsMSB_unfold, if_pos h]

theorem digitsMSB_2 {n : Nat} (h1 : 10 ≤ n) (h2 : n < 100) :
    digitsMSB n = [48 + n / 10, 48 + n % 10] := by
  rw [digitsMSB_unfold, if_neg (by omega), digitsMSB_1 (by omega)]
  rfl

theorem digitsMSB_3 {n : Nat} (h1 : 100 ≤ n) (h2 : n < 1000) :
    digitsMSB n = [48 + n / 100, 48 + n / 10 % 10, 48 + n % 10] := by
  rw [digitsMSB_unfold, if_neg (by omega), digitsMSB_2 (by omega) (by omega),
    show n / 10 / 10 = n / 100 by omega, show n / 10 % 10 = n / 10 % 10 from rfl]
  rfl

theorem digitsMSB_4 {n : Nat} (h1 : 1000 ≤ n) (h2 : n < 10000) :
    digitsMSB n = [48 + n / 1000, 48 + n / 100 % 10, 48 + n / 10 % 10, 48 + n % 10] := by
  rw [digitsMSB_unfold, if_neg (by omega), digitsMSB_3 (by omega) (by omega),
    show n / 10 / 100 = n / 1000 by omega, show n / 10 / 10 % 10 = n / 100 % 10 by omega]
  rfl

theorem digitsMSB_5 {n : Nat} (h1 : 10000 ≤ n) (h2 : n < 100000) :
    digitsMSB n = [48 + n / 10000, 48 + n / 1000 % 10, 48 + n / 100 % 10,
      48 + n / 10 % 10, 48 + n % 10] := by
  rw [digitsMSB_unfold, if_neg (by omega), digitsMSB_4 (by omega) (by omega),
    show n / 10 / 1000 = n / 10000 by omega, show n / 10 / 100 % 10 = n / 1000 % 10 by omega,
    show n / 10 / 10 % 10 = n / 100 % 10 by omega]
  rfl

theorem digitsMSB_6 {n : Nat} (h1 : 100000 ≤ n) (h2 : n < 1000000) :
    digitsMSB n = [48 + n / 100000, 48 + n / 10000 % 10, 48 + n / 1000 % 10,
      48 + n / 100 % 10, 48 + n / 10 % 10, 48 + n % 10] := by
  rw [digitsMSB_unfold, if_neg (by omega), digitsMSB_5 (by omega) (by omega),
    show n / 10 / 10000 = n / 100000 by omega,
    show n / 10 / 1000 % 10 = n / 10000 % 10 by omega,
    show n / 10 / 100 % 10 = n / 1000 % 10 by omega,
    show n / 10 / 10 % 10 = n / 100 % 10 by omega]
  rfl

/-- Below the six-digit rollover, `f"{n:06d}"` is the fixed-width base-10
digit vector of `n`. -/
theorem format06_eq {n : Nat} (h : n < 1000000) :
    format06 n = [48 + n / 100000 % 10, 48 + n / 10000 % 10, 48 + n / 1000 % 10,
      48 + n / 100 % 10, 48 + n / 10 % 10, 48 + n % 10] := by
  by_cases c1 : n < 10
  · rw [format06, digitsMSB_1 c1]
    simp only [List.length_cons, List.length_nil, List.replicate, List.cons.injEq, and_true,
      List.cons_append, List.nil_append]
    omega
  by_cases c2 : n < 100
  · rw [format06, digitsMSB_2 (by omega) c2]
    simp only [List.length_cons, List.length_nil, List.replicate, List.cons.injEq, and_true,
      List.cons_append, List.nil_append]
    omega
  by_cases c3 : n < 1000
  · rw [format06, digitsMSB_3 (by omega) c3]
    simp only [List.length_cons, List.length_nil, List.replicate, List.cons.injEq, and_true,
      List.cons_append, List.nil_append]
    omega
  by_cases c4 : n < 10000
  · rw [format06, digitsMSB_4 (by omega) c4]
    simp only [List.length_cons, List.length_nil, List.replicate, List.cons.injEq, and_true,
      List.cons_append, List.nil_append]
    omega
  by_cases c5 : n < 100000
  · rw [format06, digitsMSB_5 (by omega) c5]
    simp only [List.length_cons, List.length_nil, List.replicate, List.cons.injEq, and_true,
      List.cons_append, List.nil_append]
    omega
  · rw [format06, digitsMSB_6 (by omega) h]
    simp only [List.length_cons, List.length_nil, List.replicate, List.cons.injEq, and_true,
      List.cons_append, List.nil_append]
    omega

theorem lexLe_cons_lt {x y : Nat} (xs ys : Name) (h : x < y) :
    lexLe (x :: xs) (y :: ys) = true := by
  show (if x < y then true else if x = y then lexLe xs ys else false) = true
  rw [if_pos h]

theorem lexLe_cons_eq {x y : Nat} (xs ys : Name) (hxy : x = y)
    (h : lexLe xs ys = true) : lexLe (x :: xs) (y :: ys) = true := by
  subst hxy
  show (if x < x then true else if x = x then lexLe xs ys else false) = true
  rw [if_neg (lt_irrefl x), if_pos rfl, h]

/-- Fixed-width decimal vectors compare like the numbers they denote. -/
theorem padLex : ∀ (k a b : Nat) (u v : Name), a < b → b < 10 ^ k →
    lexLe (padVec k a ++ u) (padVec k b ++ v) = true
  | 0, a, b, _, _, hab, hb => by
    have hb1 : b < 1 := by simpa using hb
    omega
  | k + 1, a, b, u, v, hab, hb => by
    have he : 0 < 10 ^ k := Nat.pow_pos (by norm_num)
    simp only [padVec, List.cons_append]
    rcases Nat.lt_trichotomy (a / 10 ^ k) (b / 10 ^ k) with hlt | heq | hgt
    · exact lexLe_cons_lt _ _ (by omega)
    · refine lexLe_cons_eq _ _ (by omega) ?_
      have ha2 := Nat.div_add_mod a (10 ^ k)
      have hb2 := Nat.div_add_mod b (10 ^ k)
      have hcast : 10 ^ k * (a / 10 ^ k) = 10 ^ k * (b / 10 ^ k) := by rw [heq]
      exact padLex k _ _ u v (by omega) (Nat.mod_lt b he)
    · exfalso
      have h1 : 10 ^ k * (b / 10 ^ k + 1) ≤ 10 ^ k * (a / 10 ^ k) :=
        Nat.mul_le_mul_left _ (by omega)
      have h2 := Nat.div_add_mod a (10 ^ k)
      have h3 := Nat.div_add_mod b (10 ^ k)
      have h4 : b % 10 ^ k < 10 ^ k := Nat.mod_lt b he
      have h5 : 10 ^ k * (b / 10 ^ k + 1) = 10 ^ k * (b / 10 ^ k) + 10 ^ k := by ring
      omega

/-- Below the rollover, `f"{n:06d}"` is the six-position digit vector. -/
theorem format06_padVec {n : Nat} (h : n < 1000000) : format06 n = padVec 6 n := by
  rw [format06_eq h]
  simp only [padVec]
  norm_num
  omega

theorem lexLe_format06 {a b : Nat} (u v : Name) (hab : a < b) (hb : b < 1000000) :
    lexLe (format06 a ++ u) (format06 b ++ v) = true := by
  rw [format06_padVec (lt_trans hab hb), format06_padVec hb]
  have hpow : (1000000 : Nat) = 10 ^ 6 := by norm_num
  exact padLex 6 a b u v hab (hpow ▸ hb)

/-- Every staged frame name matches the glob pattern `frame_*.jpg`. -/
theorem matches_frameName (seq : Nat) (ts : Name) :
    matchesFramePat (frameName seq ts) = true := by
  have hassoc : frameName seq ts
      = (strCodes "frame_" ++ format06 seq ++ [95] ++ ts) ++ strCodes ".jpg" := rfl
  have hra : frameName seq ts
      = strCodes "frame_" ++ (format06 seq ++ ([95] ++ (ts ++ strCodes ".jpg"))) := by
    simp [frameName, List.append_assoc]
  have hlen : (strCodes "frame_").length = 6 := rfl
  have hlen2 : (strCodes ".jpg").length = 4 := rfl
  simp only [matchesFramePat, Bool.and_eq_true, decide_eq_true_eq]
  refine ⟨⟨?_, ?_⟩, ?_⟩
  · rw [hassoc]
    simp only [List.length_append, hlen, hlen2]
    omega
  · show (frameName seq ts).take 6 = framePatStart
    rw [hra]
    exact List.take_left' hlen
  · show (frameName seq ts).drop ((frameName seq ts).length - 4) = framePatEnd
    rw [hassoc]
    refine List.drop_left' ?_
    simp only [List.length_append, hlen, hlen2]
    omega

/-- Staged frame names of one batch compare by sequence number, whatever
their timestamp parts, as long as the six-digit field does not roll over. -/
theorem lexLe_frameName {sa sb : Nat} (ts1 ts2 : Name) (hab : sa < sb)
    (hb : sb < 1000000) :
    lexLe (frameName sa ts1) (frameName sb ts2) = true := by
  have h1 : frameName sa ts1
      = strCodes "frame_" ++ (format06 sa ++ ([95] ++ (ts1 ++ strCodes ".jpg"))) := by
    simp [frameName, List.append_assoc]
  have h2 : frameName sb ts2
      = strCodes "frame_" ++ (format06 sb ++ ([95] ++ (ts2 ++ strCodes ".jpg"))) := by
    simp [frameName, List.append_assoc]
  rw [h1, h2, lexLe_append_left]
  exact lexLe_format06 _ _ hab hb

/-- The `file` entries of the per-frame section of the playlist are the
frames themselves. -/
theorem filesOf_pairs (q : ℚ) :
    ∀ l : List Name, filesOf (l.flatMap fun n => [Entry.file n, Entry.dur q]) = l
  | [] => rfl
  | a :: l => by
    simp only [List.flatMap_cons, filesOf, List.filterMap_append]
    show [a] ++ filesOf (l.flatMap fun n => [Entry.file n, Entry.dur q]) = a :: l
    rw [filesOf_pairs q l]
    rfl

/-! ### C3: playlist structure, corrected for the six-digit rollover -/

/-- C3 counterexample: a batch holding frames with sequence numbers 999999
and 1000000.  Python's `{:06d}` renders the latter with seven digits, and
code-point sorting then places `frame_1000000_...` before
`frame_999999_...`: the playlist's file entries come out in the order
1000000, 999999, 999999 — not capture-sequence order.  The claim as stated
is therefore false for such a flush. -/
theorem c3_seq_rollover_reorders :
    filesOf (framesListContent (sortedGlob
        [frameName 999999 (strCodes "a"), frameName 1000000 (strCodes "b")]) 24)
      = [frameName 1000000 (strCodes "b"), frameName 999999 (strCodes "a"),
          frameName 999999 (strCodes "a")] ∧
      frameName 1000000 (strCodes "b") ≠ frameName 999999 (strCodes "a") := by
  constructor <;> decide

/-- C3 as amended: for a flush whose staged batch is captured in sequence
order with all sequence numbers below the six-digit rollover (10^6), the
generated playlist is exactly the batch in capture-sequence order, each
frame paired with a `duration 1/fps` entry, followed by one duplicate
`file` entry for the last frame — so it carries exactly N+1 file entries
(app.py:100, 110-118). -/
theorem c3_playlist_structure (frames : List CapFrame) (fps : ℚ)
    (hne : frames ≠ [])
    (hsorted : frames.Pairwise fun f g => f.seq < g.seq)
    (hbound : ∀ f ∈ frames, f.seq < 1000000) :
    framesListContent (sortedGlob (frames.map fun f => frameName f.seq f.ts)) fps
        = ((frames.map fun f => frameName f.seq f.ts).flatMap
              fun n => [Entry.file n, Entry.dur (1 / fps)])
            ++ [Entry.file ((frames.map fun f => frameName f.seq f.ts).getLastD [])] ∧
      (filesOf (framesListContent
            (sortedGlob (frames.map fun f => frameName f.seq f.ts)) fps)).length
        = frames.length + 1 := by
  have hnames_ne : (frames.map fun f => frameName f.seq f.ts) ≠ [] := by
    simpa using hne
  have hpw : (frames.map fun f => frameName f.seq f.ts).Pairwise
      fun a b => lexLe a b = true := by
    rw [List.pairwise_map]
    exact hsorted.imp_of_mem fun {a b} ha hb hab =>
      lexLe_frameName a.ts b.ts hab (hbound b hb)
  have hglob : sortedGlob (frames.map fun f => frameName f.seq f.ts)
      = frames.map fun f => frameName f.seq f.ts := by
    unfold sortedGlob
    rw [List.filter_eq_self.mpr fun a ha => ?_, sortBy_sorted_id hpw]
    obtain ⟨f, _, rfl⟩ := List.mem_map.mp ha
    exact matches_frameName f.seq f.ts
  have hlast : (frames.map fun f => frameName f.seq f.ts).getLast?
      = some ((frames.map fun f => frameName f.seq f.ts).getLastD []) := by
    cases hq : (frames.map fun f => frameName f.seq f.ts).getLast? with
    | none => exact absurd (List.getLast?_eq_none_iff.mp hq) hnames_ne
    | some x => rw [List.getLastD_eq_getLast?, hq]; rfl
  have hmain : framesListContent
      (sortedGlob (frames.map fun f => frameName f.seq f.ts)) fps
      = ((frames.map fun f => frameName f.seq f.ts).flatMap
            fun n => [Entry.file n, Entry.dur (1 / fps)])
          ++ [Entry.file ((frames.map fun f => frameName f.seq f.ts).getLastD [])] := by
    rw [hglob, framesListContent, hlast]
  refine ⟨hmain, ?_⟩
  rw [hmain, filesOf, List.filterMap_append]
  show (filesOf ((frames.map fun f => frameName f.seq f.ts).flatMap
      fun n => [Entry.file n, Entry.dur (1 / fps)])
    ++ filesOf [Entry.file ((frames.map fun f => frameName f.seq f.ts).getLastD [])]).length
    = frames.length + 1
  rw [filesOf_pairs]
  simp [filesOf]

/-- C3 witness for the amended statement: a two-frame batch in capture
order. -/
theorem c3_playlist_structure_witness :
    ([CapFrame.mk 0 (strCodes "a"), CapFrame.mk 1 (strCodes "b")] ≠ ([] : List CapFrame) ∧
      ([CapFrame.mk 0 (strCodes "a"), CapFrame.mk 1 (strCodes "b")].Pairwise
        fun f g => f.seq < g.seq) ∧
      (∀ f ∈ [CapFrame.mk 0 (strCodes "a"), CapFrame.mk 1 (strCodes "b")],
        f.seq < 1000000)) ∧
    (framesListContent (sortedGlob
          ([CapFrame.mk 0 (strCodes "a"), CapFrame.mk 1 (strCodes "b")].map
            fun f => frameName f.seq f.ts)) 24
        = (([CapFrame.mk 0 (strCodes "a"), CapFrame.mk 1 (strCodes "b")].map
              fun f => frameName f.seq f.ts).flatMap
              fun n => [Entry.file n, Entry.dur (1 / 24)])
            ++ [Entry.file (([CapFrame.mk 0 (strCodes "a"),
                  CapFrame.mk 1 (strCodes "b")].map
                    fun f => frameName f.seq f.ts).getLastD [])] ∧
      (filesOf (framesListContent (sortedGlob
            ([CapFrame.mk 0 (strCodes "a"), CapFrame.mk 1 (strCodes "b")].map
              fun f => frameName f.seq f.ts)) 24)).length
        = [CapFrame.mk 0 (strCodes "a"), CapFrame.mk 1 (strCodes "b")].length + 1) :=
  ⟨⟨by decide, by decide, by decide⟩,
    c3_playlist_structure [CapFrame.mk 0 (strCodes "a"), CapFrame.mk 1 (strCodes "b")]
      24 (by decide) (by decide) (by decide)⟩

/-! ### C8: the mixed-key sort of the migration sweep -/

/-- C8: on any input holding at least one file with a parseable timestamp
and at least one without, the sort key of `group_frames_by_time`
(migrate_frames.py:49) mixes `datetime` and `float`; the comparison raises
`TypeError` and the sweep fails before producing any group.  (On
homogeneous inputs the same sort succeeds, so the function is total exactly
there.) -/
theorem c8_mixed_inputs_error (frames : List MFrame) (hpg fpv : Nat) (nowTs : Int)
    (h1 : ∃ f ∈ frames, (get_frame_timestamp f).isSome = true)
    (h2 : ∃ f ∈ frames, (get_frame_timestamp f).isNone = true) :
    group_frames_by_time frames hpg fpv nowTs = Except.error sortTypeErrorMsg := by
  have hcond : (frames.any fun f => (sortKey f).isLeft) = true
      ∧ (frames.any fun f => (sortKey f).isRight) = true := by
    constructor
    · rw [List.any_eq_true]
      obtain ⟨f, hf, hsome⟩ := h1
      obtain ⟨t, ht⟩ := Option.isSome_iff_exists.mp hsome
      exact ⟨f, hf, by simp [sortKey, ht]⟩
    · rw [List.any_eq_true]
      obtain ⟨f, hf, hnone⟩ := h2
      have ht : get_frame_timestamp f = none := Option.isNone_iff_eq_none.mp hnone
      exact ⟨f, hf, by simp [sortKey, ht]⟩
  have hs : sortFramesE frames = Except.error sortTypeErrorMsg := by
    unfold sortFramesE
    rw [if_pos hcond]
  unfold group_frames_by_time
  rw [hs]

/-- C8 witness: one parseable and one unparseable file. -/
theorem c8_mixed_inputs_error_witness :
    ((∃ f ∈ [MFrame.mk (some 0) 0, MFrame.mk none 5],
        (get_frame_timestamp f).isSome = true) ∧
      (∃ f ∈ [MFrame.mk (some 0) 0, MFrame.mk none 5],
        (get_frame_timestamp f).isNone = true)) ∧
      group_frames_by_time [MFrame.mk (some 0) 0, MFrame.mk none 5] 24 1440 0
        = Except.error sortTypeErrorMsg :=
  ⟨⟨by decide, by decide⟩,
    c8_mixed_inputs_error [MFrame.mk (some 0) 0, MFrame.mk none 5] 24 1440 0
      (by decide) (by decide)⟩

/-! ### C6: grouping of uniformly spaced, parseable frames -/

theorem uniformSeg_length (t0 : Int) : ∀ (s n : Nat), (uniformSeg t0 s n).length = n
  | _, 0 => rfl
  | s, n + 1 => by simp [uniformSeg, uniformSeg_length t0 (s + 1) n]

theorem uniformSeg_snoc (t0 : Int) : ∀ (s n : Nat),
    uniformSeg t0 s (n + 1)
      = uniformSeg t0 s n ++ [MFrame.mk (some (t0 + 60 * (s + n : Nat))) 0]
  | s, 0 => by simp [uniformSeg]
  | s, n + 1 => by
    show MFrame.mk (some (t0 + 60 * (s : Nat))) 0 :: uniformSeg t0 (s + 1) (n + 1)
        = (MFrame.mk (some (t0 + 60 * (s : Nat))) 0 :: uniformSeg t0 (s + 1) n) ++ _
    rw [uniformSeg_snoc t0 (s + 1) n, show s + 1 + n = s + (n + 1) by omega]
    rfl

theorem mem_uniformSeg (t0 : Int) : ∀ (s n : Nat) (f : MFrame),
    f ∈ uniformSeg t0 s n →
      ∃ i, i < n ∧ f = MFrame.mk (some (t0 + 60 * (s + i : Nat))) 0
  | _, 0, f, h => absurd h (List.not_mem_nil f)
  | s, n + 1, f, h => by
    rcases List.mem_cons.mp h with h1 | h2
    · exact ⟨0, by omega, by simpa using h1⟩
    · obtain ⟨i, hi, hf⟩ := mem_uniformSeg t0 (s + 1) n f h2
      exact ⟨i + 1, by omega, by rw [hf, show s + 1 + i = s + (i + 1) by omega]⟩

theorem uniformSeg_pairwise (t0 : Int) : ∀ (s n : Nat),
    (uniformSeg t0 s n).Pairwise fun f g => keyLe f g = true
  | _, 0 => List.Pairwise.nil
  | s, n + 1 => by
    refine List.Pairwise.cons ?_ (uniformSeg_pairwise t0 (s + 1) n)
    intro g hg
    obtain ⟨i, _, rfl⟩ := mem_uniformSeg t0 (s + 1) n g hg
    simp only [keyLe, sortKey, get_frame_timestamp, decide_eq_true_eq]
    omega

theorem sortFramesE_uniform (t0 : Int) (n : Nat) :
    sortFramesE (uniformSeg t0 0 n) = Except.ok (uniformSeg t0 0 n) := by
  have hmix : ¬(((uniformSeg t0 0 n).any fun f => (sortKey f).isLeft) = true
      ∧ ((uniformSeg t0 0 n).any fun f => (sortKey f).isRight) = true) := by
    rintro ⟨-, hR⟩
    rw [List.any_eq_true] at hR
    obtain ⟨f, hf, hR2⟩ := hR
    obtain ⟨i, _, rfl⟩ := mem_uniformSeg t0 0 n f hf
    simp [sortKey, get_frame_timestamp] at hR2
  unfold sortFramesE
  rw [if_neg hmix, sortBy_sorted_id (uniformSeg_pairwise t0 0 n)]

/-- The elapsed-hours condition of the grouping loop, on 60-second-spaced
frames, is exactly the count condition. -/
theorem uniform_cond_iff (j cnt : Nat) (t0 : Int) :
    (((24 : Nat) : ℚ) ≤ (((t0 + 60 * ((j + cnt : Nat) : Int))
        - (t0 + 60 * ((j : Nat) : Int)) : ℤ) : ℚ) / 3600) ↔ 1440 ≤ cnt := by
  have h1 : ((t0 + 60 * ((j + cnt : Nat) : Int)) - (t0 + 60 * ((j : Nat) : Int)) : ℤ)
      = 60 * (cnt : ℤ) := by push_cast; ring
  rw [h1, le_div_iff₀ (by norm_num : (0 : ℚ) < 3600)]
  constructor
  · intro h
    have h3 : (1440 : ℚ) ≤ (cnt : ℚ) := by push_cast at h; linarith
    exact_mod_cast h3
  · intro h
    have h3 : (1440 : ℚ) ≤ (cnt : ℚ) := by exact_mod_cast h
    push_cast
    linarith

/-- Invariant of the grouping loop on 60-second-spaced frames: starting
inside a batch of `cnt` frames (1 ≤ cnt ≤ 1440) whose first frame is at
slot `j`, with every already-closed group of size exactly 1440, every group
other than the trailing one in the final output has size exactly 1440. -/
theorem groupGo_uniform (t0 nowTs : Int) :
    ∀ (r j cnt : Nat) (groups : List (Option Int × List MFrame)),
      1 ≤ cnt → cnt ≤ 1440 →
      (∀ g ∈ groups, g.2.length = 1440) →
      ∀ g ∈ (groupGo 1440 24 nowTs (some (t0 + 60 * ((j : Nat) : Int)))
          (uniformSeg t0 j cnt) groups (uniformSeg t0 (j + cnt) r)).dropLast,
        g.2.length = 1440 := by
  intro r
  induction r with
  | zero =>
    intro j cnt groups h1 _ hg
    have hne : uniformSeg t0 j cnt ≠ [] := by
      intro h
      have hl := uniformSeg_length t0 j cnt
      rw [h] at hl
      simp at hl
      omega
    simp only [groupGo]
    rw [if_neg hne, List.dropLast_concat]
    exact hg
  | succ r ih =>
    intro j cnt groups h1 h2 hg
    show ∀ g ∈ (groupGo 1440 24 nowTs (some (t0 + 60 * ((j : Nat) : Int)))
        (uniformSeg t0 j cnt) groups
        (MFrame.mk (some (t0 + 60 * ((j + cnt : Nat) : Int))) 0
          :: uniformSeg t0 (j + cnt + 1) r)).dropLast,
      g.2.length = 1440
    simp only [groupGo, get_frame_timestamp]
    by_cases hfull : cnt = 1440
    · rw [if_pos (Or.inr (by rw [uniformSeg_length]; omega))]
      intro g hgmem
      refine ih (j + cnt) 1 (groups ++ [(some (t0 + 60 * ((j : Nat) : Int)),
        uniformSeg t0 j cnt)]) (by omega) (by omega) ?_ g ?_
      · intro g2 hg2
        rcases List.mem_append.mp hg2 with hin | hone
        · exact hg g2 hin
        · rw [List.mem_singleton.mp hone]
          show (uniformSeg t0 j cnt).length = 1440
          rw [uniformSeg_length]
          exact hfull
      · exact hgmem
    · rw [if_neg ?_]
      · intro g hgmem
        refine ih j (cnt + 1) groups (by omega) (by omega) hg g ?_
        rw [uniformSeg_snoc t0 j cnt, show j + (cnt + 1) = j + cnt + 1 by omega]
        exact hgmem
      · rintro (htime | hcount)
        · rw [uniform_cond_iff] at htime
          omega
        · rw [uniformSeg_length] at hcount
          omega

/-- C6: on frames whose filename timestamps are spaced exactly 60 seconds
apart, with `hours_per_group = 24` and `FRAMES_PER_VIDEO = 1440`, the
migration grouping closes a group after exactly every 1440 frames: every
group except possibly the last has exactly 1440 frames
(migrate_frames.py:43-81). -/
theorem c6_uniform_groups_are_full (n : Nat) (t0 nowTs : Int) :
    (group_frames_by_time (uniformSeg t0 0 n) 24 1440 nowTs).map
        (fun gs => gs.dropLast.all fun g => g.2.length == 1440)
      = Except.ok true := by
  unfold group_frames_by_time
  rw [sortFramesE_uniform t0 n]
  cases n with
  | zero => rfl
  | succ m =>
    have hstep : groupGo 1440 24 nowTs none [] [] (uniformSeg t0 0 (m + 1))
        = groupGo 1440 24 nowTs (some (t0 + 60 * (((0 : Nat)) : Int)))
            (uniformSeg t0 0 1) [] (uniformSeg t0 (0 + 1) m) := by
      show groupGo 1440 24 nowTs none [] []
          (MFrame.mk (some (t0 + 60 * (((0 : Nat)) : Int))) 0 :: uniformSeg t0 1 m) = _
      simp only [groupGo, get_frame_timestamp]
      rfl
    have hall := groupGo_uniform t0 nowTs m 0 1 [] (by omega) (by omega)
      (by intro g hg; exact absurd hg (List.not_mem_nil g))
    show Except.ok ((groupGo 1440 24 nowTs none [] []
        (uniformSeg t0 0 (m + 1))).dropLast.all fun g => g.2.length == 1440)
      = Except.ok true
    rw [hstep]
    congr 1
    rw [List.all_eq_true]
    intro g hgmem
    exact beq_iff_eq.mpr (hall g hgmem)
